import Mathlib

/-!
# AgentFlow workflow execution engine — shallow embedding

Shallow embedding of the AgentFlow core covered by the specification:

* `agentflow/core/task.py` — `TaskStatus`, `Task` and its state-machine
  methods (`is_ready`, `can_retry`, `mark_running`, `mark_completed`,
  `mark_failed`);
* `agentflow/core/workflow.py` — `WorkflowStatus`, `Workflow`;
* `agentflow/core/engine.py` — `WorkflowEngine.execute` and
  `WorkflowEngine._execute_task`;
* `agentflow/store/approval.py` — `ApprovalStatus`, `ApprovalRequest`
  (`approve`, `reject`, and the timeout branch of `wait`).

Modelling conventions:

* Python `Dict[str, Any]` values returned by agents are modelled as
  association lists `List (String × String)`; the engine never inspects
  their contents, only whether a value is a dict (`isinstance(result, dict)`)
  — a non-dict result is modelled by a separate constructor and wrapped as
  `{"result": result}` exactly as the engine does.
* The registry `self._agents` is an environment `AgentEnv`; an agent's
  `run(task, context)` coroutine is modelled by its observable outcome per
  task: a returned value, a raised exception message, or exceeding the
  task's timeout (`asyncio.TimeoutError` from `asyncio.wait_for`).  The
  caller-supplied `context` mapping is opaque to the engine and is folded
  into the environment.
* `asyncio.gather` runs the ready tasks of a round concurrently; each
  `_execute_task` call mutates only its own task and appends to
  `_completed_task_ids` on success.  The round is modelled as a fold over
  the ready set in list order (the tasks of a round are independent; only
  the append order to `_completed_task_ids` is scheduler-dependent in the
  source, and nothing reads that list until the round has settled).
* `workflow.tasks` is a list of distinct mutable objects; `pending_tasks`
  holds aliases into it.  We model the object store as the task list and
  `pending_tasks` as a list of indices into it.
* Display-only fields (`description`, `priority`, `metadata`, callbacks,
  `created_at`/`resolved_at` wall-clock timestamps) and logging are not
  modelled; no specified behaviour reads them.
-/

namespace AgentFlow

/-- Enum `TaskStatus` from `agentflow/core/task.py`. -/
inductive TaskStatus where
  | pending
  | running
  | completed
  | failed
  | skipped
  | waiting_approval
deriving DecidableEq, Repr

/-- Enum `WorkflowStatus` from `agentflow/core/workflow.py`. -/
inductive WorkflowStatus where
  | pending
  | running
  | completed
  | failed
  | cancelled
  | paused
deriving DecidableEq, Repr

/-- A Python dict value as the engine sees it: an opaque association list. -/
abbrev Dict := List (String × String)

/-- Structure `Task` from `agentflow/core/task.py` (scheduling-relevant fields). -/
structure Task where
  task_id : String
  name : String
  agent_id : Option String
  dependencies : List String
  status : TaskStatus
  requires_approval : Bool
  max_retries : Nat
  retry_count : Nat
  timeout_seconds : Nat
  output_data : Option Dict
  error : Option String
deriving DecidableEq, Repr

/-- Method `Task.is_ready`: `all(dep in completed_task_ids for dep in self.dependencies)`. -/
def Task.is_ready (t : Task) (completed_task_ids : List String) : Bool :=
  t.dependencies.all (fun dep => completed_task_ids.contains dep)

/-- Method `Task.can_retry`: `self.retry_count < self.max_retries`. -/
def Task.can_retry (t : Task) : Bool :=
  t.retry_count < t.max_retries

/-- Method `Task.mark_running`: `self.status = TaskStatus.RUNNING`. -/
def Task.mark_running (t : Task) : Task :=
  { t with status := TaskStatus.running }

/-- Method `Task.mark_completed`: sets status `COMPLETED` and `output_data = output`.
It does not touch `error` or `retry_count`. -/
def Task.mark_completed (t : Task) (output : Dict) : Task :=
  { t with status := TaskStatus.completed, output_data := some output }

/-- Method `Task.mark_failed`: sets status `FAILED`, `error = error_msg`, and
increments `retry_count`. -/
def Task.mark_failed (t : Task) (error_msg : String) : Task :=
  { t with
      status := TaskStatus.failed
      error := some error_msg
      retry_count := t.retry_count + 1 }

/-- Structure `Workflow` from `agentflow/core/workflow.py` (scheduling-relevant fields). -/
structure Workflow where
  workflow_id : String
  name : String
  tasks : List Task
  status : WorkflowStatus
  max_retries : Nat
  timeout_seconds : Nat
deriving DecidableEq, Repr

/-- Observable outcome of one awaited agent attempt for a task, as
`_execute_task` distinguishes them:

* `ok d` — `agent.run` returned a dict `d` within the timeout;
* `okValue v` — it returned a non-dict value `v` within the timeout
  (`isinstance(result, dict)` is false);
* `raised msg` — it raised an exception whose `str` is `msg`
  (caught by `except Exception`);
* `timedOut` — `asyncio.wait_for` raised `asyncio.TimeoutError`. -/
inductive AgentOutcome where
  | ok (d : Dict)
  | okValue (v : String)
  | raised (msg : String)
  | timedOut
deriving DecidableEq, Repr

/-- An agent's behaviour: the outcome of `run(task, context)` per task
(the context of one `execute` call is fixed and folded in). -/
abbrev AgentBeh := Task → AgentOutcome

/-- The engine's agent registry `self._agents` (with the execution context
folded in): `agent_id ↦ behaviour`, `none` when no agent is registered
under the id. -/
abbrev AgentEnv := String → Option AgentBeh

/-- The message of the `ValueError` raised for an unregistered agent id:
`f"No agent found with id: {task.agent_id}"` (Python prints `None` for a
missing id). -/
def noAgentMsg (agent_id : Option String) : String :=
  "No agent found with id: " ++ (match agent_id with
    | some i => i
    | none => "None")

/-- The timeout error message:
`f"Task {task.name} timed out after {task.timeout_seconds}s"`. -/
def timeoutMsg (t : Task) : String :=
  "Task " ++ t.name ++ " timed out after " ++ toString t.timeout_seconds ++ "s"

/-- Method `WorkflowEngine._execute_task`, acting on the task object.  It marks the
task running, resolves the agent (`self._agents.get(task.agent_id)`), awaits
it under `task.timeout_seconds`, and converts every failure mode into
`mark_failed` via the `except` clauses; an unregistered agent id raises
`ValueError` inside the `try`, caught by `except Exception`.  On success the
result is coerced to a dict and `mark_completed`.  The function is total:
no exception escapes `_execute_task`. -/
def execTask (env : AgentEnv) (t : Task) : Task :=
  let tr := t.mark_running
  match t.agent_id.bind env with
  | none => tr.mark_failed (noAgentMsg t.agent_id)
  | some beh =>
    match beh t with
    | AgentOutcome.ok d => tr.mark_completed d
    | AgentOutcome.okValue v => tr.mark_completed [("result", v)]
    | AgentOutcome.raised msg => tr.mark_failed msg
    | AgentOutcome.timedOut => tr.mark_failed (timeoutMsg t)

/-- Enum `ApprovalStatus` from `agentflow/store/approval.py`. -/
inductive ApprovalStatus where
  | pending
  | approved
  | rejected
  | expired
deriving DecidableEq, Repr

/-- The dict an `ApprovalRequest`'s future resolves with:
`{"status": ..., "comment"/"reason": ...}`. -/
structure FutResult where
  status : String
  info : String
deriving DecidableEq, Repr

/-- Structure `ApprovalRequest` from `agentflow/store/approval.py`.  `futureResult`
models `self._future`: `none` while the future is not done, `some r` once
`set_result(r)` has been called (after which `self._future.done()` is true
and the result can never change). -/
structure ApprovalRequest where
  task_id : String
  agent_name : String
  action : String
  status : ApprovalStatus
  timeout_seconds : Nat
  futureResult : Option FutResult
deriving DecidableEq, Repr

/-- Constructor `ApprovalQueue.create_request` / `ApprovalRequest.__init__`: status
`PENDING`, future not yet resolved. -/
def ApprovalRequest.create (task_id agent_name action : String)
    (timeout_seconds : Nat) : ApprovalRequest :=
  { task_id := task_id
    agent_name := agent_name
    action := action
    status := ApprovalStatus.pending
    timeout_seconds := timeout_seconds
    futureResult := none }

/-- Method `ApprovalRequest.approve`: unconditionally sets
`self.status = APPROVED`; sets the future's result only
`if not self._future.done()`. -/
def ApprovalRequest.approve (r : ApprovalRequest) (comment : String) :
    ApprovalRequest :=
  { r with
      status := ApprovalStatus.approved
      futureResult :=
        match r.futureResult with
        | some res => some res
        | none => some { status := "approved", info := comment } }

/-- Method `ApprovalRequest.reject`: unconditionally sets
`self.status = REJECTED`; sets the future's result only
`if not self._future.done()`. -/
def ApprovalRequest.reject (r : ApprovalRequest) (reason : String) :
    ApprovalRequest :=
  { r with
      status := ApprovalStatus.rejected
      futureResult :=
        match r.futureResult with
        | some res => some res
        | none => some { status := "rejected", info := reason } }

/-- The `except asyncio.TimeoutError` branch of `ApprovalRequest.wait`:
the wait timed out, so `self.status = EXPIRED` and `wait` returns
`{"status": "expired"}` — the future itself is left untouched. -/
def ApprovalRequest.expire (r : ApprovalRequest) : ApprovalRequest :=
  { r with status := ApprovalStatus.expired }

/-! ## The scheduling loop of `WorkflowEngine.execute`

`workflow.tasks` is a list of distinct mutable task objects and
`pending_tasks` holds aliases into it, so we model the object store as the
list `tasks` and `pending_tasks` as the list `pending` of indices into it.
`completedIds` is `self._completed_task_ids`. -/

/-- The mutable state of one `execute` call. -/
structure EngineState where
  tasks : List Task
  pending : List Nat
  completedIds : List String
deriving DecidableEq, Repr

/-- The ready set of a round:
`[t for t in pending_tasks if t.is_ready(self._completed_task_ids) and t.status == PENDING]`. -/
def readyIdx (s : EngineState) : List Nat :=
  s.pending.filter (fun i =>
    match s.tasks[i]? with
    | some t => t.is_ready s.completedIds && t.status == TaskStatus.pending
    | none => false)

/-- One `self._execute_task(task, context)` call of a round: replace the
task object with its post-execution state and, on success, append
`task.task_id` to `self._completed_task_ids` (the append sits directly
after `mark_completed` in `_execute_task`). -/
def dispatchOne (env : AgentEnv) (s : EngineState) (i : Nat) : EngineState :=
  match s.tasks[i]? with
  | none => s
  | some t =>
      let t' := execTask env t
      { s with
          tasks := s.tasks.set i t'
          completedIds :=
            if t'.status == TaskStatus.completed then
              s.completedIds ++ [t'.task_id]
            else s.completedIds }

/-- One iteration of the `while` body after the ready set was found
non-empty: run every ready task (the `asyncio.gather`), then
`pending_tasks = [t for t in pending_tasks if t.status == PENDING]`. -/
def roundStep (env : AgentEnv) (s : EngineState) : EngineState :=
  let s' := (readyIdx s).foldl (dispatchOne env) s
  { s' with
      pending := s'.pending.filter (fun i =>
        match s'.tasks[i]? with
        | some t => t.status == TaskStatus.pending
        | none => false) }

/-- A dispatch event: task `task` (its state at the start of the round, at
position `idx` of the store) is handed to `_execute_task`, with the round's
snapshot of the task store and of `self._completed_task_ids`. -/
structure DispatchEvent where
  idx : Nat
  task : Task
  tasksSnap : List Task
  completedSnap : List String
deriving DecidableEq, Repr

/-- The dispatch event for position `i` holding task `t` in state `s`. -/
def mkEvent (s : EngineState) (i : Nat) (t : Task) : DispatchEvent :=
  { idx := i, task := t, tasksSnap := s.tasks, completedSnap := s.completedIds }

/-- The dispatch events of one round: one per ready task. -/
def roundEvents (s : EngineState) : List DispatchEvent :=
  (readyIdx s).filterMap (fun i => (s.tasks[i]?).map (mkEvent s i))

/-- The `while pending_tasks and iteration < max_iterations` loop.  `fuel`
is `max_iterations - iteration`; each entry into the body consumes one unit.
Returns the final state, the trace of dispatch events, and the number of
times the loop body ran (`iteration` at exit).  An entry that finds the
ready set empty logs the circular-dependency warning and `break`s. -/
def loop (env : AgentEnv) : Nat → EngineState → EngineState × List DispatchEvent × Nat
  | 0, s => (s, [], 0)
  | Nat.succ fuel, s =>
    if s.pending.isEmpty then (s, [], 0)
    else if (readyIdx s).isEmpty then (s, [], 1)
    else
      let r := loop env fuel (roundStep env s)
      (r.1, roundEvents s ++ r.2.1, r.2.2 + 1)

/-- The initial loop state: `pending_tasks = list(workflow.tasks)`,
`self._completed_task_ids = []`. -/
def initState (w : Workflow) : EngineState :=
  { tasks := w.tasks
    pending := List.range w.tasks.length
    completedIds := [] }

/-- Method `WorkflowEngine.execute`: run the scheduling loop with
`max_iterations = len(pending_tasks) * 2`, then set the final workflow
status — `FAILED` if any task has status `FAILED`, else `COMPLETED`.
(The function is total; the `except Exception` arm of `execute` is dead in
the model because `_execute_task` never lets an exception escape.) -/
def execute (env : AgentEnv) (w : Workflow) : Workflow :=
  let s := (loop env (w.tasks.length * 2) (initState w)).1
  let failed_tasks := s.tasks.filter (fun t => t.status == TaskStatus.failed)
  { w with
      tasks := s.tasks
      status :=
        if failed_tasks.isEmpty then WorkflowStatus.completed
        else WorkflowStatus.failed }

/-- The dispatch trace of an `execute` call: every hand-off of a task to
`_execute_task`, in round order. -/
def executeEvents (env : AgentEnv) (w : Workflow) : List DispatchEvent :=
  (loop env (w.tasks.length * 2) (initState w)).2.1

/-- The number of iterations the scheduling loop of `execute` performs. -/
def executeRounds (env : AgentEnv) (w : Workflow) : Nat :=
  (loop env (w.tasks.length * 2) (initState w)).2.2

/-! ## Invariants and auxiliary predicates -/

/-- Engine invariant: every id in `_completed_task_ids` is the id of a task
in the store whose status is `COMPLETED` (ids are appended exactly on
`mark_completed`, and completed tasks are never dispatched again). -/
abbrev InvC (s : EngineState) : Prop :=
  ∀ id ∈ s.completedIds,
    ∃ (p : Nat) (t : Task), s.tasks[p]? = some t ∧ t.task_id = id ∧
      t.status = TaskStatus.completed

/-- The two-part engine invariant: duplicate-free `pending_tasks`, and
`_completed_task_ids` faithful to the store. -/
abbrev GInv (s : EngineState) : Prop := s.pending.Nodup ∧ InvC s

/-- Relation between the store before and after any number of rounds: each
position is untouched, or was dispatched exactly once while `PENDING` and
now holds the result of that single `_execute_task` call. -/
abbrev StepRel (env : AgentEnv) (s s2 : EngineState) : Prop :=
  ∀ (j : Nat), s2.tasks[j]? = s.tasks[j]? ∨
    ∃ (t : Task), s.tasks[j]? = some t ∧ t.status = TaskStatus.pending ∧
      s2.tasks[j]? = some (execTask env t)

/-- Invariant for a mutually-dependent pair of tasks: the tasks at
positions `iA`, `iB` are still `PENDING` with ids `A`, `B` and each lists
the other id as a dependency; neither id has entered
`_completed_task_ids`; and no other position carries id `A` or `B`. -/
abbrev CycInv (iA iB : Nat) (A B : String) (s : EngineState) : Prop :=
  (∃ (tA : Task), s.tasks[iA]? = some tA ∧ tA.status = TaskStatus.pending ∧
    tA.task_id = A ∧ B ∈ tA.dependencies) ∧
  (∃ (tB : Task), s.tasks[iB]? = some tB ∧ tB.status = TaskStatus.pending ∧
    tB.task_id = B ∧ A ∈ tB.dependencies) ∧
  A ∉ s.completedIds ∧ B ∉ s.completedIds ∧
  (∀ (p : Nat) (u : Task), s.tasks[p]? = some u →
    (u.task_id = A → p = iA) ∧ (u.task_id = B → p = iB))

/-! ## Concrete fixtures -/

/-- A concrete task with the dataclass defaults of `Task` (`max_retries=3`,
`retry_count=0`, `timeout_seconds=60`), bound to agent id `agent-1`. -/
def sampleTask (id : String) (deps : List String) : Task :=
  { task_id := id
    name := id
    agent_id := some "agent-1"
    dependencies := deps
    status := TaskStatus.pending
    requires_approval := false
    max_retries := 3
    retry_count := 0
    timeout_seconds := 60
    output_data := none
    error := none }

/-- A task that requires approval (`requires_approval=True`). -/
def gatedTask : Task :=
  { sampleTask "T1" [] with requires_approval := true }

/-- A registry with one agent (`agent-1`) that returns a dict. -/
def envOk : AgentEnv := fun i =>
  if i = "agent-1" then some (fun _ => AgentOutcome.ok [("r", "1")]) else none

/-- A registry whose agent raises `Exception("boom")` on every run. -/
def envRaise : AgentEnv := fun i =>
  if i = "agent-1" then some (fun _ => AgentOutcome.raised "boom") else none

/-- A registry whose agent exceeds every task timeout. -/
def envTimeout : AgentEnv := fun i =>
  if i = "agent-1" then some (fun _ => AgentOutcome.timedOut) else none

/-- A one-task workflow. -/
def wfSingle : Workflow :=
  { workflow_id := "wf-1"
    name := "single"
    tasks := [sampleTask "T1" []]
    status := WorkflowStatus.pending
    max_retries := 3
    timeout_seconds := 300 }

/-- A workflow with the mutual dependency cycle A depends_on B,
B depends_on A. -/
def wfCycle : Workflow :=
  { wfSingle with
      workflow_id := "wf-2"
      name := "cycle"
      tasks := [sampleTask "A" ["B"], sampleTask "B" ["A"]] }

/-- A fork workflow: T2 and T3 both depend on T1. -/
def wfChain : Workflow :=
  { wfSingle with
      workflow_id := "wf-3"
      name := "chain"
      tasks := [sampleTask "T1" [], sampleTask "T2" ["T1"],
        sampleTask "T3" ["T1"]] }

/-- A one-task workflow whose task requires approval. -/
def wfApproval : Workflow :=
  { wfSingle with
      workflow_id := "wf-4"
      name := "gated"
      tasks := [gatedTask] }

/-- A workflow with no tasks. -/
def wfEmpty : Workflow :=
  { wfSingle with
      workflow_id := "wf-0"
      name := "empty"
      tasks := [] }

/-- The dispatch event of task T2 in the second round of running `wfChain`
under `envOk`: at that point T1 has completed and its id is the sole entry
of `_completed_task_ids`. -/
def evT2 : DispatchEvent :=
  { idx := 1
    task := sampleTask "T2" ["T1"]
    tasksSnap := [((sampleTask "T1" []).mark_running).mark_completed
        [("r", "1")],
      sampleTask "T2" ["T1"], sampleTask "T3" ["T1"]]
    completedSnap := ["T1"] }

/-! ## Basic properties of `_execute_task` -/

/-- Branch equation: unregistered agent id. -/
theorem execTask_eq_of_none (env : AgentEnv) (t : Task)
    (h : t.agent_id.bind env = none) :
    execTask env t = (t.mark_running).mark_failed (noAgentMsg t.agent_id) := by
  simp [execTask, h]

/-- Branch equation: the agent returned a dict within the timeout. -/
theorem execTask_eq_of_ok (env : AgentEnv) (t : Task) (beh : AgentBeh) (d : Dict)
    (h : t.agent_id.bind env = some beh) (hb : beh t = AgentOutcome.ok d) :
    execTask env t = (t.mark_running).mark_completed d := by
  simp [execTask, h, hb]

/-- Branch equation: the agent returned a non-dict value, wrapped as
`{"result": result}`. -/
theorem execTask_eq_of_okValue (env : AgentEnv) (t : Task) (beh : AgentBeh)
    (v : String)
    (h : t.agent_id.bind env = some beh) (hb : beh t = AgentOutcome.okValue v) :
    execTask env t = (t.mark_running).mark_completed [("result", v)] := by
  simp [execTask, h, hb]

/-- Branch equation: the agent raised; the `except Exception` arm applies
the uniform failure path `mark_failed`. -/
theorem execTask_eq_of_raised (env : AgentEnv) (t : Task) (beh : AgentBeh)
    (msg : String)
    (h : t.agent_id.bind env = some beh) (hb : beh t = AgentOutcome.raised msg) :
    execTask env t = (t.mark_running).mark_failed msg := by
  simp [execTask, h, hb]

/-- Branch equation: `asyncio.wait_for` timed out; the
`except asyncio.TimeoutError` arm applies the same uniform failure path
`mark_failed`, with the timeout message. -/
theorem execTask_eq_of_timeout (env : AgentEnv) (t : Task) (beh : AgentBeh)
    (h : t.agent_id.bind env = some beh) (hb : beh t = AgentOutcome.timedOut) :
    execTask env t = (t.mark_running).mark_failed (timeoutMsg t) := by
  simp [execTask, h, hb]

/-- One `_execute_task` call leaves the task terminal: completed or failed
(every failure mode of the `try` is caught and converted to `mark_failed`). -/
theorem execTask_status (env : AgentEnv) (t : Task) :
    (execTask env t).status = TaskStatus.completed ∨
      (execTask env t).status = TaskStatus.failed := by
  cases h : t.agent_id.bind env with
  | none =>
    rw [execTask_eq_of_none env t h]
    right; rfl
  | some beh =>
    cases hb : beh t with
    | ok d => rw [execTask_eq_of_ok env t beh d h hb]; left; rfl
    | okValue v => rw [execTask_eq_of_okValue env t beh v h hb]; left; rfl
    | raised msg => rw [execTask_eq_of_raised env t beh msg h hb]; right; rfl
    | timedOut => rw [execTask_eq_of_timeout env t beh h hb]; right; rfl

/-- A task that has gone through `_execute_task` is no longer `PENDING`. -/
theorem execTask_status_ne_pending (env : AgentEnv) (t : Task) :
    (execTask env t).status ≠ TaskStatus.pending := by
  rcases execTask_status env t with h | h <;> rw [h] <;> intro hc <;> cases hc

/-- `_execute_task` never produces `WAITING_APPROVAL`. -/
theorem execTask_status_ne_waiting (env : AgentEnv) (t : Task) :
    (execTask env t).status ≠ TaskStatus.waiting_approval := by
  rcases execTask_status env t with h | h <;> rw [h] <;> intro hc <;> cases hc

/-- `_execute_task` never changes the task's identity. -/
theorem execTask_task_id (env : AgentEnv) (t : Task) :
    (execTask env t).task_id = t.task_id := by
  cases h : t.agent_id.bind env with
  | none => rw [execTask_eq_of_none env t h]; rfl
  | some beh =>
    cases hb : beh t with
    | ok d => rw [execTask_eq_of_ok env t beh d h hb]; rfl
    | okValue v => rw [execTask_eq_of_okValue env t beh v h hb]; rfl
    | raised msg => rw [execTask_eq_of_raised env t beh msg h hb]; rfl
    | timedOut => rw [execTask_eq_of_timeout env t beh h hb]; rfl

/-- `_execute_task` never changes the dependency list. -/
theorem execTask_dependencies (env : AgentEnv) (t : Task) :
    (execTask env t).dependencies = t.dependencies := by
  cases h : t.agent_id.bind env with
  | none => rw [execTask_eq_of_none env t h]; rfl
  | some beh =>
    cases hb : beh t with
    | ok d => rw [execTask_eq_of_ok env t beh d h hb]; rfl
    | okValue v => rw [execTask_eq_of_okValue env t beh v h hb]; rfl
    | raised msg => rw [execTask_eq_of_raised env t beh msg h hb]; rfl
    | timedOut => rw [execTask_eq_of_timeout env t beh h hb]; rfl

/-- Retry accounting of one attempt: the count is unchanged on success and
incremented by exactly one on failure; in particular it grows by at most
one per dispatch. -/
theorem execTask_retry_count (env : AgentEnv) (t : Task) :
    ((execTask env t).status = TaskStatus.completed ∧
      (execTask env t).retry_count = t.retry_count) ∨
    ((execTask env t).status = TaskStatus.failed ∧
      (execTask env t).retry_count = t.retry_count + 1) := by
  cases h : t.agent_id.bind env with
  | none => rw [execTask_eq_of_none env t h]; right; exact ⟨rfl, rfl⟩
  | some beh =>
    cases hb : beh t with
    | ok d => rw [execTask_eq_of_ok env t beh d h hb]; left; exact ⟨rfl, rfl⟩
    | okValue v =>
      rw [execTask_eq_of_okValue env t beh v h hb]; left; exact ⟨rfl, rfl⟩
    | raised msg =>
      rw [execTask_eq_of_raised env t beh msg h hb]; right; exact ⟨rfl, rfl⟩
    | timedOut =>
      rw [execTask_eq_of_timeout env t beh h hb]; right; exact ⟨rfl, rfl⟩

/-- Success characterization: a completed attempt went through
`mark_completed`, so `output_data` is set and `error` is whatever it was
before the attempt (`mark_completed` does not clear it). -/
theorem execTask_completed_char (env : AgentEnv) (t : Task)
    (h : (execTask env t).status = TaskStatus.completed) :
    (execTask env t).output_data.isSome = true ∧
      (execTask env t).error = t.error := by
  cases he : t.agent_id.bind env with
  | none => rw [execTask_eq_of_none env t he] at h; cases h
  | some beh =>
    cases hb : beh t with
    | ok d => rw [execTask_eq_of_ok env t beh d he hb]; exact ⟨rfl, rfl⟩
    | okValue v => rw [execTask_eq_of_okValue env t beh v he hb]; exact ⟨rfl, rfl⟩
    | raised msg => rw [execTask_eq_of_raised env t beh msg he hb] at h; cases h
    | timedOut => rw [execTask_eq_of_timeout env t beh he hb] at h; cases h

/-- Failure characterization: a failed attempt went through `mark_failed`,
so `error` holds the failure message and `retry_count` was incremented. -/
theorem execTask_failed_char (env : AgentEnv) (t : Task)
    (h : (execTask env t).status = TaskStatus.failed) :
    (∃ msg, (execTask env t).error = some msg) ∧
      (execTask env t).retry_count = t.retry_count + 1 := by
  cases he : t.agent_id.bind env with
  | none =>
    rw [execTask_eq_of_none env t he]
    exact ⟨⟨noAgentMsg t.agent_id, rfl⟩, rfl⟩
  | some beh =>
    cases hb : beh t with
    | ok d => rw [execTask_eq_of_ok env t beh d he hb] at h; cases h
    | okValue v => rw [execTask_eq_of_okValue env t beh v he hb] at h; cases h
    | raised msg =>
      rw [execTask_eq_of_raised env t beh msg he hb]
      exact ⟨⟨msg, rfl⟩, rfl⟩
    | timedOut =>
      rw [execTask_eq_of_timeout env t beh he hb]
      exact ⟨⟨timeoutMsg t, rfl⟩, rfl⟩

/-! ## Properties of one dispatch and one round -/

/-- Branch equation: dispatching an out-of-range position is a no-op. -/
theorem dispatchOne_eq_of_none (env : AgentEnv) (s : EngineState) (i : Nat)
    (h : s.tasks[i]? = none) : dispatchOne env s i = s := by
  simp [dispatchOne, h]

/-- Branch equation: dispatching position `i` holding task `t`. -/
theorem dispatchOne_eq_of_some (env : AgentEnv) (s : EngineState) (i : Nat)
    (t : Task) (h : s.tasks[i]? = some t) :
    dispatchOne env s i =
      { s with
          tasks := s.tasks.set i (execTask env t)
          completedIds :=
            if (execTask env t).status == TaskStatus.completed then
              s.completedIds ++ [(execTask env t).task_id]
            else s.completedIds } := by
  simp [dispatchOne, h]

/-- Effect of one dispatch on the task store: position `i` is replaced by
the result of `_execute_task`, every other position is untouched. -/
theorem dispatchOne_tasks (env : AgentEnv) (s : EngineState) (i j : Nat) :
    (dispatchOne env s i).tasks[j]? =
      if j = i then (s.tasks[j]?).map (execTask env) else s.tasks[j]? := by
  cases h : s.tasks[i]? with
  | none =>
    rw [dispatchOne_eq_of_none env s i h]
    by_cases hj : j = i
    · subst hj; simp [h]
    · simp [hj]
  | some t =>
    rw [dispatchOne_eq_of_some env s i t h]
    simp only
    rw [List.getElem?_set]
    by_cases hj : j = i
    · subst hj
      have hlt : j < s.tasks.length := (List.getElem?_eq_some.mp h).1
      simp [hlt, h]
    · rw [if_neg (fun hc => hj hc.symm), if_neg hj]

/-- One dispatch does not touch `pending_tasks`. -/
theorem dispatchOne_pending (env : AgentEnv) (s : EngineState) (i : Nat) :
    (dispatchOne env s i).pending = s.pending := by
  cases h : s.tasks[i]? with
  | none => rw [dispatchOne_eq_of_none env s i h]
  | some t => rw [dispatchOne_eq_of_some env s i t h]

/-- Ids already in `_completed_task_ids` survive a dispatch. -/
theorem dispatchOne_completed_mono (env : AgentEnv) (s : EngineState) (i : Nat)
    (id : String) (h : id ∈ s.completedIds) :
    id ∈ (dispatchOne env s i).completedIds := by
  cases hi : s.tasks[i]? with
  | none => rw [dispatchOne_eq_of_none env s i hi]; exact h
  | some t =>
    rw [dispatchOne_eq_of_some env s i t hi]
    simp only
    split
    · exact List.mem_append_left _ h
    · exact h

/-- Any id in `_completed_task_ids` after a dispatch was either already
there or is the id of the task at the dispatched position, whose attempt
completed. -/
theorem dispatchOne_completed_sub (env : AgentEnv) (s : EngineState) (i : Nat)
    (id : String) (h : id ∈ (dispatchOne env s i).completedIds) :
    id ∈ s.completedIds ∨
      ∃ t, s.tasks[i]? = some t ∧ t.task_id = id ∧
        (execTask env t).status = TaskStatus.completed := by
  cases hi : s.tasks[i]? with
  | none => rw [dispatchOne_eq_of_none env s i hi] at h; exact Or.inl h
  | some t =>
    rw [dispatchOne_eq_of_some env s i t hi] at h
    simp only at h
    by_cases hc : ((execTask env t).status == TaskStatus.completed) = true
    · rw [if_pos hc] at h
      rcases List.mem_append.mp h with h1 | h1
      · exact Or.inl h1
      · right
        refine ⟨t, rfl, ?_, beq_iff_eq.mp hc⟩
        have h2 := List.mem_singleton.mp h1
        rw [h2, execTask_task_id]
    · rw [if_neg hc] at h
      exact Or.inl h

/-! ## The fold of a round over the ready set -/

/-- Store characterization of a round's dispatches: positions in the
(duplicate-free) dispatched list are replaced by their `_execute_task`
result computed from their value at round start; all others are untouched. -/
theorem foldDispatch_tasks (env : AgentEnv) :
    ∀ (l : List Nat) (s : EngineState), l.Nodup → ∀ (j : Nat),
      (l.foldl (dispatchOne env) s).tasks[j]? =
        if j ∈ l then (s.tasks[j]?).map (execTask env) else s.tasks[j]? := by
  intro l
  induction l with
  | nil => intro s _ j; simp
  | cons i l ih =>
    intro s hnd j
    have hnd2 := (List.nodup_cons.mp hnd).2
    have hni := (List.nodup_cons.mp hnd).1
    rw [List.foldl_cons, ih (dispatchOne env s i) hnd2 j]
    simp only [dispatchOne_tasks]
    by_cases hji : j = i
    · subst hji
      have hjl : j ∉ l := hni
      simp [hjl]
    · by_cases hjl : j ∈ l <;> simp [hji, hjl]

/-- The dispatches of a round do not touch `pending_tasks`. -/
theorem foldDispatch_pending (env : AgentEnv) :
    ∀ (l : List Nat) (s : EngineState),
      (l.foldl (dispatchOne env) s).pending = s.pending := by
  intro l
  induction l with
  | nil => intro s; rfl
  | cons i l ih =>
    intro s
    rw [List.foldl_cons, ih, dispatchOne_pending]

/-- `_completed_task_ids` only grows during a round. -/
theorem foldDispatch_completed_mono (env : AgentEnv) :
    ∀ (l : List Nat) (s : EngineState) (id : String),
      id ∈ s.completedIds → id ∈ (l.foldl (dispatchOne env) s).completedIds := by
  intro l
  induction l with
  | nil => intro s id h; exact h
  | cons i l ih =>
    intro s id h
    rw [List.foldl_cons]
    exact ih _ id (dispatchOne_completed_mono env s i id h)

/-- Ids added to `_completed_task_ids` during a round belong to tasks that
were dispatched in that round. -/
theorem foldDispatch_completed_sub (env : AgentEnv) :
    ∀ (l : List Nat) (s : EngineState), l.Nodup → ∀ (id : String),
      id ∈ (l.foldl (dispatchOne env) s).completedIds →
      id ∈ s.completedIds ∨
        ∃ i ∈ l, ∃ t, s.tasks[i]? = some t ∧ t.task_id = id := by
  intro l
  induction l with
  | nil => intro s _ id h; exact Or.inl h
  | cons i l ih =>
    intro s hnd id h
    have hnd2 := (List.nodup_cons.mp hnd).2
    have hni := (List.nodup_cons.mp hnd).1
    rw [List.foldl_cons] at h
    rcases ih (dispatchOne env s i) hnd2 id h with h1 | ⟨i2, hi2, t, ht, hid⟩
    · rcases dispatchOne_completed_sub env s i id h1 with h2 | ⟨t, ht, hid, _⟩
      · exact Or.inl h2
      · exact Or.inr ⟨i, List.mem_cons_self i l, t, ht, hid⟩
    · have hne : i2 ≠ i := fun hc => hni (hc ▸ hi2)
      rw [dispatchOne_tasks env s i i2, if_neg hne] at ht
      exact Or.inr ⟨i2, List.mem_cons_of_mem i hi2, t, ht, hid⟩

/-- One dispatch of a pending task preserves the invariant. -/
theorem dispatchOne_InvC (env : AgentEnv) (s : EngineState) (i : Nat)
    (hInv : InvC s)
    (hp : ∀ t, s.tasks[i]? = some t → t.status = TaskStatus.pending) :
    InvC (dispatchOne env s i) := by
  intro id hid
  rcases dispatchOne_completed_sub env s i id hid with h1 | ⟨t, ht, hid2, hc⟩
  · rcases hInv id h1 with ⟨p, u, hu, huid, hust⟩
    refine ⟨p, u, ?_, huid, hust⟩
    rw [dispatchOne_tasks env s i p]
    by_cases hpi : p = i
    · exfalso
      subst hpi
      have hcontra := hp u hu
      rw [hcontra] at hust
      exact absurd hust (by decide)
    · rw [if_neg hpi]; exact hu
  · refine ⟨i, execTask env t, ?_, ?_, hc⟩
    · rw [dispatchOne_tasks env s i i, if_pos rfl, ht]; rfl
    · rw [execTask_task_id]; exact hid2

/-- A whole round of dispatches of pending tasks preserves the invariant. -/
theorem foldDispatch_InvC (env : AgentEnv) :
    ∀ (l : List Nat) (s : EngineState), l.Nodup → InvC s →
      (∀ i ∈ l, ∀ t, s.tasks[i]? = some t → t.status = TaskStatus.pending) →
      InvC (l.foldl (dispatchOne env) s) := by
  intro l
  induction l with
  | nil => intro s _ hInv _; exact hInv
  | cons i l ih =>
    intro s hnd hInv hp
    have hnd2 := (List.nodup_cons.mp hnd).2
    have hni := (List.nodup_cons.mp hnd).1
    rw [List.foldl_cons]
    apply ih (dispatchOne env s i) hnd2
    · exact dispatchOne_InvC env s i hInv (hp i (List.mem_cons_self i l))
    · intro i2 hi2 t ht
      have hne : i2 ≠ i := fun hc => hni (hc ▸ hi2)
      rw [dispatchOne_tasks env s i i2, if_neg hne] at ht
      exact hp i2 (List.mem_cons_of_mem i hi2) t ht

/-! ## The ready set -/

/-- Membership in the ready set of a round: a pending-list position holding
a task whose dependencies are all in `_completed_task_ids` and whose status
is `PENDING`. -/
theorem mem_readyIdx {s : EngineState} {i : Nat} :
    i ∈ readyIdx s ↔
      i ∈ s.pending ∧ ∃ t, s.tasks[i]? = some t ∧
        t.is_ready s.completedIds = true ∧ t.status = TaskStatus.pending := by
  unfold readyIdx
  rw [List.mem_filter]
  constructor
  · rintro ⟨hp, hf⟩
    refine ⟨hp, ?_⟩
    cases h : s.tasks[i]? with
    | none => rw [h] at hf; cases hf
    | some t =>
      rw [h] at hf
      have hf2 : (t.is_ready s.completedIds && (t.status == TaskStatus.pending)) = true := hf
      rw [Bool.and_eq_true] at hf2
      exact ⟨t, rfl, hf2.1, beq_iff_eq.mp hf2.2⟩
  · rintro ⟨hp, t, ht, hr, hst⟩
    refine ⟨hp, ?_⟩
    rw [ht]
    show (t.is_ready s.completedIds && (t.status == TaskStatus.pending)) = true
    rw [Bool.and_eq_true]
    exact ⟨hr, beq_iff_eq.mpr hst⟩

/-- The ready set has no duplicate positions when `pending_tasks` has none. -/
theorem readyIdx_nodup {s : EngineState} (h : s.pending.Nodup) :
    (readyIdx s).Nodup :=
  List.Nodup.filter _ h

/-! ## Properties of one round -/

/-- Store characterization of one round. -/
theorem roundStep_tasks (env : AgentEnv) (s : EngineState)
    (hnd : s.pending.Nodup) (j : Nat) :
    (roundStep env s).tasks[j]? =
      if j ∈ readyIdx s then (s.tasks[j]?).map (execTask env)
      else s.tasks[j]? := by
  show ((readyIdx s).foldl (dispatchOne env) s).tasks[j]? = _
  exact foldDispatch_tasks env (readyIdx s) s (readyIdx_nodup hnd) j

/-- Membership in `pending_tasks` after a round: still listed and still
`PENDING` in the updated store. -/
theorem mem_roundStep_pending (env : AgentEnv) (s : EngineState) (i : Nat) :
    i ∈ (roundStep env s).pending ↔
      i ∈ s.pending ∧ ∃ t, (roundStep env s).tasks[i]? = some t ∧
        t.status = TaskStatus.pending := by
  have hpend : (roundStep env s).pending =
      s.pending.filter (fun i =>
        match (roundStep env s).tasks[i]? with
        | some t => t.status == TaskStatus.pending
        | none => false) := by
    show (((readyIdx s).foldl (dispatchOne env) s).pending.filter _) = _
    rw [foldDispatch_pending]
    rfl
  rw [hpend, List.mem_filter]

  constructor
  · rintro ⟨hp, hf⟩
    refine ⟨hp, ?_⟩
    cases h : (roundStep env s).tasks[i]? with
    | none => rw [h] at hf; cases hf
    | some t =>
      rw [h] at hf
      have hf2 : (t.status == TaskStatus.pending) = true := hf
      exact ⟨t, rfl, beq_iff_eq.mp hf2⟩
  · rintro ⟨hp, t, ht, hst⟩
    refine ⟨hp, ?_⟩
    rw [ht]
    show (t.status == TaskStatus.pending) = true
    rw [beq_iff_eq]
    exact hst

/-- A round keeps `pending_tasks` duplicate-free. -/
theorem roundStep_pending_nodup (env : AgentEnv) (s : EngineState)
    (h : s.pending.Nodup) : (roundStep env s).pending.Nodup := by
  show (((readyIdx s).foldl (dispatchOne env) s).pending.filter _).Nodup
  rw [foldDispatch_pending]
  exact List.Nodup.filter _ h

/-- `_completed_task_ids` only grows across a round. -/
theorem roundStep_completed_mono (env : AgentEnv) (s : EngineState)
    (id : String) (h : id ∈ s.completedIds) :
    id ∈ (roundStep env s).completedIds :=
  foldDispatch_completed_mono env (readyIdx s) s id h

/-- Ids added across a round belong to tasks that were ready that round. -/
theorem roundStep_completed_sub (env : AgentEnv) (s : EngineState)
    (hnd : s.pending.Nodup) (id : String)
    (h : id ∈ (roundStep env s).completedIds) :
    id ∈ s.completedIds ∨
      ∃ i ∈ readyIdx s, ∃ t, s.tasks[i]? = some t ∧ t.task_id = id :=
  foldDispatch_completed_sub env (readyIdx s) s (readyIdx_nodup hnd) id h

/-- A round preserves the engine invariant. -/
theorem roundStep_GInv (env : AgentEnv) (s : EngineState) (h : GInv s) :
    GInv (roundStep env s) := by
  refine ⟨roundStep_pending_nodup env s h.1, ?_⟩
  have hInv2 : InvC ((readyIdx s).foldl (dispatchOne env) s) := by
    apply foldDispatch_InvC env (readyIdx s) s (readyIdx_nodup h.1) h.2
    intro i hi t ht
    rcases mem_readyIdx.mp hi with ⟨_, u, hu, _, hust⟩
    rw [ht] at hu
    rw [Option.some.inj hu]
    exact hust
  intro id hid
  exact hInv2 id hid

/-- `StepRel` is reflexive. -/
theorem stepRel_refl (env : AgentEnv) (s : EngineState) : StepRel env s s := by
  intro j
  exact Or.inl rfl

/-- `StepRel` is transitive: a position dispatched once cannot be
dispatched again, because its task is no longer `PENDING`. -/
theorem stepRel_trans (env : AgentEnv) {s1 s2 s3 : EngineState}
    (h12 : StepRel env s1 s2) (h23 : StepRel env s2 s3) :
    StepRel env s1 s3 := by
  intro j
  rcases h12 j with h1 | ⟨t, ht, hst, ht2⟩
  · rcases h23 j with h2 | ⟨u, hu, hsu, hu2⟩
    · exact Or.inl (h2.trans h1)
    · right
      exact ⟨u, h1 ▸ hu, hsu, hu2⟩
  · rcases h23 j with h2 | ⟨u, hu, hsu, hu2⟩
    · right
      exact ⟨t, ht, hst, h2.trans ht2⟩
    · exfalso
      rw [ht2] at hu
      have hue := Option.some.inj hu
      rw [← hue] at hsu
      exact execTask_status_ne_pending env t hsu

/-- One round advances the store along `StepRel`. -/
theorem roundStep_stepRel (env : AgentEnv) (s : EngineState)
    (hnd : s.pending.Nodup) : StepRel env s (roundStep env s) := by
  intro j
  rw [roundStep_tasks env s hnd j]
  by_cases hj : j ∈ readyIdx s
  · rw [if_pos hj]
    rcases mem_readyIdx.mp hj with ⟨_, t, ht, _, hst⟩
    right
    refine ⟨t, ht, hst, ?_⟩
    rw [ht]
    rfl
  · rw [if_neg hj]
    exact Or.inl rfl

/-! ## Properties of the scheduling loop -/

/-- Loop equation: out of fuel (`iteration == max_iterations`). -/
theorem loop_zero (env : AgentEnv) (s : EngineState) :
    loop env 0 s = (s, [], 0) := rfl

/-- Loop equation: `pending_tasks` is empty, the `while` condition fails. -/
theorem loop_succ_empty (env : AgentEnv) (fuel : Nat) (s : EngineState)
    (h : s.pending.isEmpty = true) :
    loop env (fuel + 1) s = (s, [], 0) := by
  simp [loop, h]

/-- Loop equation: a stalled round — no ready task, the engine logs the
circular-dependency warning and `break`s. -/
theorem loop_succ_stall (env : AgentEnv) (fuel : Nat) (s : EngineState)
    (h1 : ¬s.pending.isEmpty = true) (h2 : (readyIdx s).isEmpty = true) :
    loop env (fuel + 1) s = (s, [], 1) := by
  simp [loop, h1, h2]

/-- Loop equation: a productive round. -/
theorem loop_succ_step (env : AgentEnv) (fuel : Nat) (s : EngineState)
    (h1 : ¬s.pending.isEmpty = true) (h2 : ¬(readyIdx s).isEmpty = true) :
    loop env (fuel + 1) s =
      ((loop env fuel (roundStep env s)).1,
       roundEvents s ++ (loop env fuel (roundStep env s)).2.1,
       (loop env fuel (roundStep env s)).2.2 + 1) := by
  simp [loop, h1, h2]

/-- The loop preserves the engine invariant and only advances the store
along `StepRel`: every task is either untouched or went through exactly one
`_execute_task` call from a `PENDING` state. -/
theorem loop_master (env : AgentEnv) :
    ∀ (fuel : Nat) (s : EngineState), GInv s →
      GInv (loop env fuel s).1 ∧ StepRel env s (loop env fuel s).1 := by
  intro fuel
  induction fuel with
  | zero =>
    intro s h
    exact ⟨h, stepRel_refl env s⟩
  | succ fuel ih =>
    intro s h
    by_cases h1 : s.pending.isEmpty = true
    · rw [loop_succ_empty env fuel s h1]
      exact ⟨h, stepRel_refl env s⟩
    · by_cases h2 : (readyIdx s).isEmpty = true
      · rw [loop_succ_stall env fuel s h1 h2]
        exact ⟨h, stepRel_refl env s⟩
      · rw [loop_succ_step env fuel s h1 h2]
        have hr := roundStep_GInv env s h
        have hrel := roundStep_stepRel env s h.1
        rcases ih (roundStep env s) hr with ⟨hg, hrel2⟩
        exact ⟨hg, stepRel_trans env hrel hrel2⟩

/-- The loop body runs at most `fuel` times. -/
theorem loop_rounds_le (env : AgentEnv) :
    ∀ (fuel : Nat) (s : EngineState), (loop env fuel s).2.2 ≤ fuel := by
  intro fuel
  induction fuel with
  | zero => intro s; exact Nat.le_refl 0
  | succ fuel ih =>
    intro s
    by_cases h1 : s.pending.isEmpty = true
    · rw [loop_succ_empty env fuel s h1]
      exact Nat.zero_le _
    · by_cases h2 : (readyIdx s).isEmpty = true
      · rw [loop_succ_stall env fuel s h1 h2]
        exact Nat.succ_le_succ (Nat.zero_le _)
      · rw [loop_succ_step env fuel s h1 h2]
        exact Nat.succ_le_succ (ih (roundStep env s))

/-- Unpacking membership in a round's dispatch events. -/
theorem mem_roundEvents {s : EngineState} {e : DispatchEvent}
    (h : e ∈ roundEvents s) :
    e.idx ∈ readyIdx s ∧ s.tasks[e.idx]? = some e.task ∧
      e.tasksSnap = s.tasks ∧ e.completedSnap = s.completedIds := by
  unfold roundEvents at h
  rcases List.mem_filterMap.mp h with ⟨i, hi, hmap⟩
  cases ht : s.tasks[i]? with
  | none => rw [ht] at hmap; cases hmap
  | some t =>
    rw [ht] at hmap
    have he := Option.some.inj hmap
    subst he
    exact ⟨hi, ht, rfl, rfl⟩

/-- Every dispatch event of the loop is sound: the dispatched task was
`PENDING`, it is the snapshot's task at the event's position, all its
dependencies appear in the snapshot of `_completed_task_ids`, and that
snapshot lists only ids of tasks that are `COMPLETED` in the store
snapshot. -/
theorem loop_events_sound (env : AgentEnv) :
    ∀ (fuel : Nat) (s : EngineState), GInv s →
      ∀ e ∈ (loop env fuel s).2.1,
        e.task.status = TaskStatus.pending ∧
        e.tasksSnap[e.idx]? = some e.task ∧
        (∀ dep ∈ e.task.dependencies, dep ∈ e.completedSnap) ∧
        (∀ id ∈ e.completedSnap,
          ∃ (p : Nat) (u : Task), e.tasksSnap[p]? = some u ∧
            u.task_id = id ∧ u.status = TaskStatus.completed) := by
  intro fuel
  induction fuel with
  | zero =>
    intro s _ e he
    rw [loop_zero] at he
    cases he
  | succ fuel ih =>
    intro s hg e he
    by_cases h1 : s.pending.isEmpty = true
    · rw [loop_succ_empty env fuel s h1] at he
      cases he
    · by_cases h2 : (readyIdx s).isEmpty = true
      · rw [loop_succ_stall env fuel s h1 h2] at he
        cases he
      · rw [loop_succ_step env fuel s h1 h2] at he
        rcases List.mem_append.mp he with hev | hev
        · rcases mem_roundEvents hev with ⟨hidx, htask, hsnap, hcomp⟩
          rcases mem_readyIdx.mp hidx with ⟨_, u, hu, hur, hust⟩
          rw [htask] at hu
          have hut := Option.some.inj hu
          refine ⟨?_, ?_, ?_, ?_⟩
          · rw [← hut] at hust; exact hust
          · rw [hsnap]; exact htask
          · intro dep hdep
            rw [hcomp]
            have hr : e.task.is_ready s.completedIds = true := by
              rw [hut]; exact hur
            unfold Task.is_ready at hr
            rw [List.all_eq_true] at hr
            have hc := hr dep hdep
            exact List.mem_of_elem_eq_true hc
          · intro id hid
            rw [hcomp] at hid
            rcases hg.2 id hid with ⟨p, u2, hu2, hid2, hst2⟩
            refine ⟨p, u2, ?_, hid2, hst2⟩
            rw [hsnap]
            exact hu2
        · exact ih (roundStep env s) (roundStep_GInv env s hg) e hev

/-- A position whose task is no longer `PENDING` is never dispatched by any
later round. -/
theorem loop_no_event_done (env : AgentEnv) :
    ∀ (fuel : Nat) (s : EngineState), GInv s →
      ∀ (i : Nat) (t : Task), s.tasks[i]? = some t →
        t.status ≠ TaskStatus.pending →
        ∀ e ∈ (loop env fuel s).2.1, e.idx ≠ i := by
  intro fuel
  induction fuel with
  | zero =>
    intro s _ i t _ _ e he
    rw [loop_zero] at he
    cases he
  | succ fuel ih =>
    intro s hg i t ht hst e he
    by_cases h1 : s.pending.isEmpty = true
    · rw [loop_succ_empty env fuel s h1] at he
      cases he
    · by_cases h2 : (readyIdx s).isEmpty = true
      · rw [loop_succ_stall env fuel s h1 h2] at he
        cases he
      · rw [loop_succ_step env fuel s h1 h2] at he
        rcases List.mem_append.mp he with hev | hev
        · rcases mem_roundEvents hev with ⟨hidx, _, _, _⟩
          intro hc
          rw [hc] at hidx
          rcases mem_readyIdx.mp hidx with ⟨_, u, hu, _, hust⟩
          rw [ht] at hu
          rw [← Option.some.inj hu] at hust
          exact hst hust
        · by_cases hii : i ∈ readyIdx s
          · exfalso
            rcases mem_readyIdx.mp hii with ⟨_, u, hu, _, hust⟩
            rw [ht] at hu
            rw [← Option.some.inj hu] at hust
            exact hst hust
          · have ht2 : (roundStep env s).tasks[i]? = some t := by
              rw [roundStep_tasks env s hg.1 i, if_neg hii]
              exact ht
            exact ih (roundStep env s) (roundStep_GInv env s hg) i t ht2 hst e hev

/-- Auxiliary: the event list built over dispatchable positions projects
back to the position list. -/
theorem filterMap_idx_eq (s : EngineState) :
    ∀ (l : List Nat), (∀ i ∈ l, ∃ (t : Task), s.tasks[i]? = some t) →
      ((l.filterMap (fun i => (s.tasks[i]?).map (mkEvent s i))).map
        (fun e => e.idx)) = l := by
  intro l
  induction l with
  | nil => intro _; rfl
  | cons i l ih =>
    intro h
    rcases h i (List.mem_cons_self i l) with ⟨t, ht⟩
    rw [List.filterMap_cons, ht]
    show ((mkEvent s i t ::
      l.filterMap (fun i => (s.tasks[i]?).map (mkEvent s i))).map
        (fun e => e.idx)) = i :: l
    rw [List.map_cons]
    show i :: _ = i :: l
    rw [ih (fun j hj => h j (List.mem_cons_of_mem i hj))]

/-- Auxiliary: the positions of a round's events are exactly the ready set. -/
theorem roundEvents_idx_map (s : EngineState)
    (h : ∀ i ∈ readyIdx s, ∃ (t : Task), s.tasks[i]? = some t) :
    (roundEvents s).map (fun e => e.idx) = readyIdx s := by
  unfold roundEvents
  exact filterMap_idx_eq s (readyIdx s) h

/-- No position is dispatched twice across a whole loop run: the event
positions are duplicate-free. -/
theorem loop_events_idx_nodup (env : AgentEnv) :
    ∀ (fuel : Nat) (s : EngineState), GInv s →
      ((loop env fuel s).2.1.map (fun e => e.idx)).Nodup := by
  intro fuel
  induction fuel with
  | zero =>
    intro s _
    rw [loop_zero]
    exact List.nodup_nil
  | succ fuel ih =>
    intro s hg
    by_cases h1 : s.pending.isEmpty = true
    · rw [loop_succ_empty env fuel s h1]
      exact List.nodup_nil
    · by_cases h2 : (readyIdx s).isEmpty = true
      · rw [loop_succ_stall env fuel s h1 h2]
        exact List.nodup_nil
      · rw [loop_succ_step env fuel s h1 h2]
        show (List.map (fun e => e.idx)
          (roundEvents s ++ (loop env fuel (roundStep env s)).2.1)).Nodup
        rw [List.map_append, List.nodup_append]
        have hmap : (roundEvents s).map (fun e => e.idx) = readyIdx s := by
          apply roundEvents_idx_map
          intro i hi
          rcases mem_readyIdx.mp hi with ⟨_, t, ht, _, _⟩
          exact ⟨t, ht⟩
        refine ⟨?_, ?_, ?_⟩
        · rw [hmap]
          exact readyIdx_nodup hg.1
        · exact ih (roundStep env s) (roundStep_GInv env s hg)
        · intro a ha hb
          rw [hmap] at ha
          rcases List.mem_map.mp hb with ⟨e2, he2, hb2⟩
          rcases mem_readyIdx.mp ha with ⟨_, t, ht, _, _⟩
          have ht2 : (roundStep env s).tasks[a]? = some (execTask env t) := by
            rw [roundStep_tasks env s hg.1 a, if_pos ha, ht]
            rfl
          have hne := loop_no_event_done env fuel (roundStep env s)
            (roundStep_GInv env s hg) a (execTask env t) ht2
            (execTask_status_ne_pending env t) e2 he2
          exact hne hb2

/-! ## Properties of `execute` -/

/-- The initial loop state satisfies the engine invariant:
`pending_tasks = list(workflow.tasks)` has no duplicate positions and
`_completed_task_ids` starts empty. -/
theorem initState_GInv (w : Workflow) : GInv (initState w) := by
  constructor
  · exact List.nodup_range w.tasks.length
  · intro id hid
    cases hid

/-- The number of tasks never changes through a dispatch. -/
theorem dispatchOne_length (env : AgentEnv) (s : EngineState) (i : Nat) :
    (dispatchOne env s i).tasks.length = s.tasks.length := by
  cases h : s.tasks[i]? with
  | none => rw [dispatchOne_eq_of_none env s i h]
  | some t =>
    rw [dispatchOne_eq_of_some env s i t h]
    exact List.length_set s.tasks i (execTask env t)

/-- The number of tasks never changes through a round's dispatches. -/
theorem foldDispatch_length (env : AgentEnv) :
    ∀ (l : List Nat) (s : EngineState),
      (l.foldl (dispatchOne env) s).tasks.length = s.tasks.length := by
  intro l
  induction l with
  | nil => intro s; rfl
  | cons i l ih =>
    intro s
    rw [List.foldl_cons, ih, dispatchOne_length]

/-- The number of tasks never changes through a round. -/
theorem roundStep_length (env : AgentEnv) (s : EngineState) :
    (roundStep env s).tasks.length = s.tasks.length := by
  show ((readyIdx s).foldl (dispatchOne env) s).tasks.length = s.tasks.length
  exact foldDispatch_length env (readyIdx s) s

/-- The number of tasks never changes through the loop. -/
theorem loop_length (env : AgentEnv) :
    ∀ (fuel : Nat) (s : EngineState),
      (loop env fuel s).1.tasks.length = s.tasks.length := by
  intro fuel
  induction fuel with
  | zero => intro s; rfl
  | succ fuel ih =>
    intro s
    by_cases h1 : s.pending.isEmpty = true
    · rw [loop_succ_empty env fuel s h1]
    · by_cases h2 : (readyIdx s).isEmpty = true
      · rw [loop_succ_stall env fuel s h1 h2]
      · rw [loop_succ_step env fuel s h1 h2]
        show (loop env fuel (roundStep env s)).1.tasks.length = s.tasks.length
        rw [ih (roundStep env s), roundStep_length]

/-- `execute` returns the workflow with the same number of tasks. -/
theorem execute_tasks_length (env : AgentEnv) (w : Workflow) :
    (execute env w).tasks.length = w.tasks.length := by
  show (loop env (w.tasks.length * 2) (initState w)).1.tasks.length =
    w.tasks.length
  rw [loop_length]
  rfl

/-- Per-position characterization of a whole `execute` run: every task is
either untouched or the result of exactly one `_execute_task` call on its
initial (pending) state. -/
theorem execute_tasks_char (env : AgentEnv) (w : Workflow) (i : Nat) :
    (execute env w).tasks[i]? = w.tasks[i]? ∨
      ∃ (t : Task), w.tasks[i]? = some t ∧ t.status = TaskStatus.pending ∧
        (execute env w).tasks[i]? = some (execTask env t) := by
  exact (loop_master env (w.tasks.length * 2) (initState w)
    (initState_GInv w)).2 i

/-- The final workflow status of `execute`, exactly as computed from
`failed_tasks`. -/
theorem execute_status_eq (env : AgentEnv) (w : Workflow) :
    (execute env w).status =
      (if ((execute env w).tasks.filter
          (fun t => t.status == TaskStatus.failed)).isEmpty then
        WorkflowStatus.completed
      else WorkflowStatus.failed) := rfl

/-- Final status is `FAILED` exactly when some task ends `FAILED`. -/
theorem execute_status_failed_iff (env : AgentEnv) (w : Workflow) :
    (execute env w).status = WorkflowStatus.failed ↔
      ∃ t ∈ (execute env w).tasks, t.status = TaskStatus.failed := by
  rw [execute_status_eq]
  by_cases h : ((execute env w).tasks.filter
      (fun t => t.status == TaskStatus.failed)).isEmpty = true
  · rw [if_pos h]
    constructor
    · intro hc
      cases hc
    · rintro ⟨t, htm, hts⟩
      exfalso
      rw [List.isEmpty_iff] at h
      have hmem : t ∈ (execute env w).tasks.filter
          (fun t => t.status == TaskStatus.failed) :=
        List.mem_filter.mpr ⟨htm, beq_iff_eq.mpr hts⟩
      rw [h] at hmem
      cases hmem
  · rw [if_neg h]
    constructor
    · intro _
      have h2 : ((execute env w).tasks.filter
          (fun t => t.status == TaskStatus.failed)) ≠ [] :=
        fun hc => h (List.isEmpty_iff.mpr hc)
      rcases List.exists_mem_of_ne_nil _ h2 with ⟨t, htm⟩
      rcases List.mem_filter.mp htm with ⟨htm2, hts⟩
      exact ⟨t, htm2, beq_iff_eq.mp hts⟩
    · intro _
      rfl

/-- The final workflow status is always `COMPLETED` or `FAILED`. -/
theorem execute_status_cases (env : AgentEnv) (w : Workflow) :
    (execute env w).status = WorkflowStatus.completed ∨
      (execute env w).status = WorkflowStatus.failed := by
  rw [execute_status_eq]
  by_cases h : ((execute env w).tasks.filter
      (fun t => t.status == TaskStatus.failed)).isEmpty = true
  · rw [if_pos h]
    exact Or.inl rfl
  · rw [if_neg h]
    exact Or.inr rfl

/-- The loop of `execute` runs its body at most `len(tasks) * 2` times. -/
theorem executeRounds_le_aux (env : AgentEnv) (w : Workflow) :
    executeRounds env w ≤ w.tasks.length * 2 :=
  loop_rounds_le env (w.tasks.length * 2) (initState w)

/-! ## Mutually-dependent task pairs (dependency cycles) -/

/-- A round never finds a mutually-dependent task ready, and preserves the
pair invariant. -/
theorem roundStep_cyc (env : AgentEnv) (iA iB : Nat) (A B : String)
    (s : EngineState) (hnd : s.pending.Nodup) (hc : CycInv iA iB A B s) :
    iA ∉ readyIdx s ∧ iB ∉ readyIdx s ∧ CycInv iA iB A B (roundStep env s) := by
  obtain ⟨⟨tA, htA, hsA, hidA, hdepA⟩, ⟨tB, htB, hsB, hidB, hdepB⟩,
    hnA, hnB, huniq⟩ := hc
  have hA : iA ∉ readyIdx s := by
    intro hmem
    rcases mem_readyIdx.mp hmem with ⟨_, u, hu, hur, _⟩
    rw [htA] at hu
    rw [← Option.some.inj hu] at hur
    unfold Task.is_ready at hur
    rw [List.all_eq_true] at hur
    exact hnB (List.mem_of_elem_eq_true (hur B hdepA))
  have hB : iB ∉ readyIdx s := by
    intro hmem
    rcases mem_readyIdx.mp hmem with ⟨_, u, hu, hur, _⟩
    rw [htB] at hu
    rw [← Option.some.inj hu] at hur
    unfold Task.is_ready at hur
    rw [List.all_eq_true] at hur
    exact hnA (List.mem_of_elem_eq_true (hur A hdepB))
  refine ⟨hA, hB, ⟨tA, ?_, hsA, hidA, hdepA⟩, ⟨tB, ?_, hsB, hidB, hdepB⟩,
    ?_, ?_, ?_⟩
  · rw [roundStep_tasks env s hnd iA, if_neg hA]
    exact htA
  · rw [roundStep_tasks env s hnd iB, if_neg hB]
    exact htB
  · intro hmem
    rcases roundStep_completed_sub env s hnd A hmem with h1 | ⟨i, hi, t, ht, hid⟩
    · exact hnA h1
    · have heq := (huniq i t ht).1 hid
      rw [heq] at hi
      exact hA hi
  · intro hmem
    rcases roundStep_completed_sub env s hnd B hmem with h1 | ⟨i, hi, t, ht, hid⟩
    · exact hnB h1
    · have heq := (huniq i t ht).2 hid
      rw [heq] at hi
      exact hB hi
  · intro p u hu
    rcases roundStep_stepRel env s hnd p with h1 | ⟨t, ht, _, ht2⟩
    · rw [h1] at hu
      exact huniq p u hu
    · rw [ht2] at hu
      have hue := Option.some.inj hu
      have hid := execTask_task_id env t
      constructor
      · intro hA2
        apply (huniq p t ht).1
        rw [← hid, hue]
        exact hA2
      · intro hB2
        apply (huniq p t ht).2
        rw [← hid, hue]
        exact hB2

/-- The whole loop never dispatches either member of a mutually-dependent
pair, and the pair invariant holds at exit. -/
theorem loop_cyc (env : AgentEnv) (iA iB : Nat) (A B : String) :
    ∀ (fuel : Nat) (s : EngineState), GInv s → CycInv iA iB A B s →
      CycInv iA iB A B (loop env fuel s).1 ∧
        (∀ e ∈ (loop env fuel s).2.1, e.idx ≠ iA ∧ e.idx ≠ iB) := by
  intro fuel
  induction fuel with
  | zero =>
    intro s _ hc
    rw [loop_zero]
    exact ⟨hc, fun e he => absurd he (List.not_mem_nil e)⟩
  | succ fuel ih =>
    intro s hg hc
    by_cases h1 : s.pending.isEmpty = true
    · rw [loop_succ_empty env fuel s h1]
      exact ⟨hc, fun e he => absurd he (List.not_mem_nil e)⟩
    · by_cases h2 : (readyIdx s).isEmpty = true
      · rw [loop_succ_stall env fuel s h1 h2]
        exact ⟨hc, fun e he => absurd he (List.not_mem_nil e)⟩
      · rw [loop_succ_step env fuel s h1 h2]
        rcases roundStep_cyc env iA iB A B s hg.1 hc with ⟨hA, hB, hc2⟩
        rcases ih (roundStep env s) (roundStep_GInv env s hg) hc2
          with ⟨hc3, hev⟩
        refine ⟨hc3, ?_⟩
        intro e he
        rcases List.mem_append.mp he with hev2 | hev2
        · rcases mem_roundEvents hev2 with ⟨hidx, _, _, _⟩
          constructor
          · intro hce
            rw [hce] at hidx
            exact hA hidx
          · intro hce
            rw [hce] at hidx
            exact hB hidx
        · exact hev e hev2

/-! ## Claim C1 — retry of failed tasks -/

/-- Claim C1, counterexample.  The claim states that a task that fails
while `can_retry()` is still true remains pending and is dispatched again.
On the code it is false: under an always-raising agent, the single task of
`wfSingle` (with `max_retries = 3`) ends `FAILED` with `retry_count = 1`
and `can_retry()` still true, yet it was dispatched exactly once (one
event, at position 0), and the final pending set is empty — the
post-round filter `t.status == PENDING` removed it regardless of its
remaining retry budget. -/
theorem C1_counterexample :
    (execute envRaise wfSingle).tasks =
      [((sampleTask "T1" []).mark_running).mark_failed "boom"] ∧
    ((((sampleTask "T1" []).mark_running).mark_failed "boom").can_retry
      = true) ∧
    (executeEvents envRaise wfSingle).map (fun e => e.idx) = [0] ∧
    (loop envRaise (wfSingle.tasks.length * 2)
      (initState wfSingle)).1.pending = [] := by
  exact ⟨rfl, rfl, rfl, rfl⟩

/-- Claim C1, amended: a task that fails an attempt is marked `FAILED` and
removed from the pending set at the end of the round even when
`can_retry()` is still true; the engine never re-dispatches any task.
Formally: every task position of `execute` is either untouched or holds
the result of exactly one `_execute_task` call on its initial pending
state, the final `retry_count` exceeds the initial one by at most 1, and
the positions of the dispatch trace are duplicate-free. -/
theorem C1_no_retry (env : AgentEnv) (w : Workflow) :
    (∀ (i : Nat) (t t2 : Task), w.tasks[i]? = some t →
      (execute env w).tasks[i]? = some t2 →
      t2 = t ∨ (t.status = TaskStatus.pending ∧ t2 = execTask env t)) ∧
    (∀ (i : Nat) (t t2 : Task), w.tasks[i]? = some t →
      (execute env w).tasks[i]? = some t2 →
      t2.retry_count ≤ t.retry_count + 1) ∧
    ((executeEvents env w).map (fun e => e.idx)).Nodup := by
  have hchar : ∀ (i : Nat) (t t2 : Task), w.tasks[i]? = some t →
      (execute env w).tasks[i]? = some t2 →
      t2 = t ∨ (t.status = TaskStatus.pending ∧ t2 = execTask env t) := by
    intro i t t2 ht ht2
    rcases execute_tasks_char env w i with h1 | ⟨u, hu, hus, hexec⟩
    · rw [h1, ht] at ht2
      exact Or.inl (Option.some.inj ht2).symm
    · rw [hu] at ht
      have hut := Option.some.inj ht
      rw [hexec] at ht2
      have h2 := Option.some.inj ht2
      right
      rw [← hut]
      exact ⟨hus, h2.symm⟩
  refine ⟨hchar, ?_, ?_⟩
  · intro i t t2 ht ht2
    rcases hchar i t t2 ht ht2 with h | ⟨_, h⟩
    · rw [h]
      exact Nat.le_succ t.retry_count
    · rw [h]
      rcases execTask_retry_count env t with ⟨_, hr⟩ | ⟨_, hr⟩
      · rw [hr]
        exact Nat.le_succ t.retry_count
      · rw [hr]
  · exact loop_events_idx_nodup env (w.tasks.length * 2) (initState w)
      (initState_GInv w)

/-- Witness for `C1_no_retry` at the concrete failing run. -/
theorem C1_no_retry_witness :
    ((((sampleTask "T1" []).mark_running).mark_failed "boom").retry_count ≤
      (sampleTask "T1" []).retry_count + 1) := by
  exact (C1_no_retry envRaise wfSingle).2.1 0 (sampleTask "T1" [])
    (((sampleTask "T1" []).mark_running).mark_failed "boom") rfl rfl

/-! ## Claim C2 — dependency cycles -/

/-- Claim C2, counterexample.  The claim states that a workflow with a
dependency cycle ends with status `failed`.  On the code it is false: for
the cyclic workflow `wfCycle` (A depends_on B, B depends_on A) no task is
ever dispatched and the loop stalls as the claim says, but `failed_tasks`
is empty — both tasks still have status `PENDING` — so `execute` sets the
final status to `COMPLETED`, not `FAILED`; the only diagnostic is a log
warning. -/
theorem C2_counterexample :
    (execute envOk wfCycle).status = WorkflowStatus.completed ∧
    ¬(execute envOk wfCycle).status = WorkflowStatus.failed ∧
    executeEvents envOk wfCycle = [] ∧
    (execute envOk wfCycle).tasks.map Task.status =
      [TaskStatus.pending, TaskStatus.pending] := by
  refine ⟨rfl, ?_, rfl, rfl⟩
  intro hc
  cases hc

/-- Claim C2, amended: the cyclic tasks never become ready (they are never
dispatched and stay `PENDING`), and `execute` terminates — the loop body
runs at most `len(tasks) * 2` times — but the final status is computed
solely from `FAILED` tasks: if no task failed it is `COMPLETED`, not
`FAILED`; the stalled round produces only a log warning. -/
theorem C2_cycle_stalls (env : AgentEnv) (w : Workflow) (iA iB : Nat)
    (A B : String) (hc : CycInv iA iB A B (initState w)) :
    (∀ e ∈ executeEvents env w, e.idx ≠ iA ∧ e.idx ≠ iB) ∧
    (∃ (tA : Task), (execute env w).tasks[iA]? = some tA ∧
      tA.status = TaskStatus.pending) ∧
    (∃ (tB : Task), (execute env w).tasks[iB]? = some tB ∧
      tB.status = TaskStatus.pending) ∧
    executeRounds env w ≤ w.tasks.length * 2 ∧
    ((∀ t ∈ (execute env w).tasks, ¬t.status = TaskStatus.failed) →
      (execute env w).status = WorkflowStatus.completed) := by
  rcases loop_cyc env iA iB A B (w.tasks.length * 2) (initState w)
    (initState_GInv w) hc with ⟨hfin, hev⟩
  obtain ⟨⟨tA, htA, hsA, _, _⟩, ⟨tB, htB, hsB, _, _⟩, _⟩ := hfin
  refine ⟨hev, ⟨tA, htA, hsA⟩, ⟨tB, htB, hsB⟩,
    executeRounds_le_aux env w, ?_⟩
  intro hnone
  rcases execute_status_cases env w with h | h
  · exact h
  · exfalso
    rcases (execute_status_failed_iff env w).mp h with ⟨t, htm, hts⟩
    exact hnone t htm hts

/-- Witness for `C2_cycle_stalls` at the concrete cyclic workflow. -/
theorem C2_cycle_stalls_witness :
    executeRounds envOk wfCycle ≤ wfCycle.tasks.length * 2 ∧
    (execute envOk wfCycle).status = WorkflowStatus.completed := by
  have hcyc : CycInv 0 1 "A" "B" (initState wfCycle) := by
    refine ⟨⟨sampleTask "A" ["B"], rfl, rfl, rfl, by decide⟩,
      ⟨sampleTask "B" ["A"], rfl, rfl, rfl, by decide⟩,
      by decide, by decide, ?_⟩
    intro p u hu
    match p with
    | 0 =>
      have h0 : (initState wfCycle).tasks[0]? =
          some (sampleTask "A" ["B"]) := rfl
      rw [h0] at hu
      have hu2 := Option.some.inj hu
      constructor
      · intro _
        rfl
      · intro hb
        rw [← hu2] at hb
        exact absurd hb (by decide)
    | 1 =>
      have h1 : (initState wfCycle).tasks[1]? =
          some (sampleTask "B" ["A"]) := rfl
      rw [h1] at hu
      have hu2 := Option.some.inj hu
      constructor
      · intro ha
        rw [← hu2] at ha
        exact absurd ha (by decide)
      · intro _
        rfl
    | p + 2 =>
      have hnone : (initState wfCycle).tasks[p + 2]? = none :=
        List.getElem?_eq_none (by
          show wfCycle.tasks.length ≤ p + 2
          have h2 : wfCycle.tasks.length = 2 := rfl
          rw [h2]
          exact Nat.le_add_left 2 p)
      rw [hnone] at hu
      cases hu
  have h := C2_cycle_stalls envOk wfCycle 0 1 "A" "B" hcyc
  exact ⟨h.2.2.2.1, h.2.2.2.2 (by decide)⟩

/-! ## Claim C3 — final workflow status -/

/-- Claim C3: when the scheduling loop of `execute` ends, the workflow
status is `failed` exactly when at least one task has status `failed`, and
`completed` otherwise; in particular a workflow whose tasks all completed
ends `completed`. -/
theorem C3_final_status (env : AgentEnv) (w : Workflow) :
    ((execute env w).status = WorkflowStatus.failed ↔
      ∃ t ∈ (execute env w).tasks, t.status = TaskStatus.failed) ∧
    ((execute env w).status = WorkflowStatus.completed ∨
      (execute env w).status = WorkflowStatus.failed) ∧
    ((∀ t ∈ (execute env w).tasks, t.status = TaskStatus.completed) →
      (execute env w).status = WorkflowStatus.completed) := by
  refine ⟨execute_status_failed_iff env w, execute_status_cases env w, ?_⟩
  intro hall
  rcases execute_status_cases env w with h | h
  · exact h
  · exfalso
    rcases (execute_status_failed_iff env w).mp h with ⟨t, htm, hts⟩
    have := hall t htm
    rw [this] at hts
    cases hts

/-- Witness for `C3_final_status` on a concrete all-completing workflow. -/
theorem C3_final_status_witness :
    (execute envOk wfChain).status = WorkflowStatus.completed := by
  exact (C3_final_status envOk wfChain).2.2 (by decide)

/-! ## Claim C4 — approval gating -/

/-- Claim C4, counterexample.  The claim states that for a task with
`requires_approval = true` the engine never invokes the agent binding
before the task has passed through the ApprovalQueue and been approved.
On the code it is false: `_execute_task` never reads `requires_approval`
and never touches the ApprovalQueue.  Running `wfApproval` (one gated
task) completes the task with the agent's output — the agent binding ran —
with no approval request ever created or resolved, and the dispatch trace
shows the task was handed to `_execute_task` in the first round. -/
theorem C4_counterexample :
    (execute envOk wfApproval).tasks =
      [(gatedTask.mark_running).mark_completed [("r", "1")]] ∧
    (execute envOk wfApproval).status = WorkflowStatus.completed ∧
    (executeEvents envOk wfApproval).map (fun e => e.idx) = [0] ∧
    gatedTask.requires_approval = true := by
  exact ⟨rfl, rfl, rfl, rfl⟩

/-- Claim C4, amended: the engine ignores `requires_approval` entirely —
even for a gated task, a successful agent outcome immediately completes
the task through the ordinary `_execute_task` path, and a task never
enters `WAITING_APPROVAL`.  (The ApprovalQueue exists in the code base but
is wired only to the HTTP API layer, not to `WorkflowEngine`.) -/
theorem C4_approval_ignored (env : AgentEnv) (t : Task) :
    (∀ (beh : AgentBeh) (d : Dict), t.agent_id.bind env = some beh →
      beh t = AgentOutcome.ok d → t.requires_approval = true →
      execTask env t = (t.mark_running).mark_completed d) ∧
    ¬(execTask env t).status = TaskStatus.waiting_approval := by
  constructor
  · intro beh d h hb _
    exact execTask_eq_of_ok env t beh d h hb
  · exact execTask_status_ne_waiting env t

/-- Witness for `C4_approval_ignored` at the concrete gated task. -/
theorem C4_approval_ignored_witness :
    execTask envOk gatedTask =
      (gatedTask.mark_running).mark_completed [("r", "1")] := by
  exact (C4_approval_ignored envOk gatedTask).1
    (fun _ => AgentOutcome.ok [("r", "1")]) [("r", "1")] rfl rfl rfl

/-! ## Claim C5 — single resolution of an approval request -/

/-- Claim C5, counterexample.  The claim states that after a request is
resolved, a subsequent `approve`/`reject` call leaves its status
unchanged.  On the code it is false: `approve` assigns
`self.status = APPROVED` unconditionally — only the future is guarded by
`if not self._future.done()` — so calling `approve` after `reject` flips
the status from `REJECTED` to `APPROVED`. -/
theorem C5_counterexample :
    ((((ApprovalRequest.create "t1" "agent" "act" 300).reject "no").approve
      "yes").status = ApprovalStatus.approved) ∧
    ¬((((ApprovalRequest.create "t1" "agent" "act" 300).reject "no").approve
      "yes").status = ApprovalStatus.rejected) ∧
    ((((ApprovalRequest.create "t1" "agent" "act" 300).reject "no").approve
      "yes").futureResult =
      some { status := "rejected", info := "no" }) := by
  refine ⟨rfl, ?_, rfl⟩
  intro hc
  cases hc

/-- Claim C5, amended: only the underlying future is single-resolution —
once `set_result` has run, later `approve`/`reject` calls leave the value
a waiter receives unchanged — while the `status` field is overwritten by
every call (`approve` always sets `APPROVED`, `reject` always sets
`REJECTED`, regardless of prior resolution). -/
theorem C5_future_single_resolution (r : ApprovalRequest)
    (comment reason : String) :
    ((r.approve comment).status = ApprovalStatus.approved ∧
      (r.reject reason).status = ApprovalStatus.rejected) ∧
    (r.futureResult.isSome = true →
      (r.approve comment).futureResult = r.futureResult ∧
      (r.reject reason).futureResult = r.futureResult) ∧
    (r.futureResult = none →
      (r.approve comment).futureResult =
        some { status := "approved", info := comment } ∧
      (r.reject reason).futureResult =
        some { status := "rejected", info := reason }) := by
  refine ⟨⟨rfl, rfl⟩, ?_, ?_⟩
  · intro h
    cases hr : r.futureResult with
    | none =>
      rw [hr] at h
      cases h
    | some res =>
      constructor
      · simp [ApprovalRequest.approve, hr]
      · simp [ApprovalRequest.reject, hr]
  · intro h
    constructor
    · simp [ApprovalRequest.approve, h]
    · simp [ApprovalRequest.reject, h]

/-- Witness for `C5_future_single_resolution` at a concrete request. -/
theorem C5_future_single_resolution_witness :
    (((ApprovalRequest.create "t1" "agent" "act" 300).reject "no").approve
      "yes").futureResult =
      ((ApprovalRequest.create "t1" "agent" "act" 300).reject
        "no").futureResult := by
  exact ((C5_future_single_resolution
    ((ApprovalRequest.create "t1" "agent" "act" 300).reject "no")
    "yes" "unused").2.1 rfl).1

/-! ## Claim C6 — dependencies before dispatch -/

/-- Claim C6: the engine never hands a task to `_execute_task` (which marks
it running and invokes its agent) before every dependency id belongs to a
`COMPLETED` task: every dispatch event carries a `PENDING` task, and at
the moment of dispatch each of its dependencies is the id of some task
with status `COMPLETED` in that round's store snapshot (the ready set
contains only pending tasks whose dependencies are all in the completed
set). -/
theorem C6_dependencies_respected (env : AgentEnv) (w : Workflow) :
    ∀ e ∈ executeEvents env w,
      e.task.status = TaskStatus.pending ∧
      (∀ dep ∈ e.task.dependencies,
        dep ∈ e.completedSnap ∧
        ∃ (p : Nat) (u : Task), e.tasksSnap[p]? = some u ∧
          u.task_id = dep ∧ u.status = TaskStatus.completed) := by
  intro e he
  rcases loop_events_sound env (w.tasks.length * 2) (initState w)
    (initState_GInv w) e he with ⟨h1, _, h3, h4⟩
  refine ⟨h1, ?_⟩
  intro dep hdep
  exact ⟨h3 dep hdep, h4 dep (h3 dep hdep)⟩

/-- Witness for `C6_dependencies_respected` at the dispatch of T2 in the
second round of `wfChain`: its dependency T1 is completed in the
snapshot. -/
theorem C6_dependencies_respected_witness :
    evT2.task.status = TaskStatus.pending ∧
    ("T1" ∈ evT2.completedSnap ∧
      ∃ (p : Nat) (u : Task), evT2.tasksSnap[p]? = some u ∧
        u.task_id = "T1" ∧ u.status = TaskStatus.completed) := by
  have hmem : evT2 ∈ executeEvents envOk wfChain := by decide
  have h := C6_dependencies_respected envOk wfChain evT2 hmem
  exact ⟨h.1, h.2 "T1" (by decide)⟩

/-! ## Claim C7 — no exceptions for ordinary task failures -/

/-- Claim C7: `execute` never raises for ordinary task failures.  In the
embedding `execute` is a total function that returns the workflow with the
same number of tasks for every environment; every per-task error — agent
exception, timeout, or unregistered `agent_id` — is converted by the
`except` arms of `_execute_task` into a `FAILED` status with the message
captured in the task's `error` field, never propagated.  For a workflow
starting from pending tasks, every final task is `PENDING`, `COMPLETED`
or `FAILED`, and every `FAILED` task carries an error message; an
unregistered agent id in particular yields a `FAILED` task with the
`ValueError` text, not a crash. -/
theorem C7_errors_captured (env : AgentEnv) (w : Workflow)
    (h : ∀ t ∈ w.tasks, t.status = TaskStatus.pending) :
    (execute env w).tasks.length = w.tasks.length ∧
    (∀ (i : Nat) (t2 : Task), (execute env w).tasks[i]? = some t2 →
      (t2.status = TaskStatus.pending ∨ t2.status = TaskStatus.completed ∨
        t2.status = TaskStatus.failed) ∧
      (t2.status = TaskStatus.failed → ∃ msg, t2.error = some msg)) ∧
    (∀ (t : Task), t.agent_id.bind env = none →
      (execTask env t).status = TaskStatus.failed ∧
      (execTask env t).error = some (noAgentMsg t.agent_id)) := by
  refine ⟨execute_tasks_length env w, ?_, ?_⟩
  · intro i t2 ht2
    rcases execute_tasks_char env w i with h1 | ⟨t, ht, hst, hexec⟩
    · rw [h1] at ht2
      have hmem : t2 ∈ w.tasks := by
        rcases List.getElem?_eq_some.mp ht2 with ⟨hlt, hget⟩
        rw [← hget]
        exact List.getElem_mem hlt
      have hp := h t2 hmem
      refine ⟨Or.inl hp, ?_⟩
      intro hf
      rw [hp] at hf
      cases hf
    · rw [hexec] at ht2
      have he := Option.some.inj ht2
      constructor
      · rcases execTask_status env t with hs | hs
        · right
          left
          rw [← he]
          exact hs
        · right
          right
          rw [← he]
          exact hs
      · intro hf
        have hf2 : (execTask env t).status = TaskStatus.failed := by
          rw [he]
          exact hf
        rcases execTask_failed_char env t hf2 with ⟨⟨msg, hmsg⟩, _⟩
        refine ⟨msg, ?_⟩
        rw [← he]
        exact hmsg
  · intro t hnone
    rw [execTask_eq_of_none env t hnone]
    exact ⟨rfl, rfl⟩

/-- Witness for `C7_errors_captured` at the concrete raising run. -/
theorem C7_errors_captured_witness :
    ∃ msg, (((sampleTask "T1" []).mark_running).mark_failed "boom").error =
      some msg := by
  exact ((C7_errors_captured envRaise wfSingle (by decide)).2.1 0
    (((sampleTask "T1" []).mark_running).mark_failed "boom") rfl).2 rfl

/-! ## Claim C8 — timeouts are ordinary failures -/

/-- Claim C8: an attempt exceeding `timeout_seconds` is handled exactly
like any other execution failure: the `except asyncio.TimeoutError` arm
applies the same `mark_failed` path, so the task ends `FAILED` with the
timeout message in `error` and `retry_count` incremented by one; an agent
that instead raised an exception with the same message leaves the task in
exactly the same state. -/
theorem C8_timeout_uniform (env : AgentEnv) (t : Task) (beh : AgentBeh)
    (h : t.agent_id.bind env = some beh)
    (hb : beh t = AgentOutcome.timedOut) :
    execTask env t = (t.mark_running).mark_failed (timeoutMsg t) ∧
    (execTask env t).status = TaskStatus.failed ∧
    (execTask env t).error = some (timeoutMsg t) ∧
    (execTask env t).retry_count = t.retry_count + 1 ∧
    (∀ (env2 : AgentEnv) (beh2 : AgentBeh),
      t.agent_id.bind env2 = some beh2 →
      beh2 t = AgentOutcome.raised (timeoutMsg t) →
      execTask env2 t = execTask env t) := by
  have heq := execTask_eq_of_timeout env t beh h hb
  refine ⟨heq, ?_, ?_, ?_, ?_⟩
  · rw [heq]
    rfl
  · rw [heq]
    rfl
  · rw [heq]
    rfl
  · intro env2 beh2 h2 hb2
    rw [execTask_eq_of_raised env2 t beh2 (timeoutMsg t) h2 hb2, heq]

/-- Witness for `C8_timeout_uniform` at the concrete timing-out agent. -/
theorem C8_timeout_uniform_witness :
    (execTask envTimeout (sampleTask "T1" [])).status = TaskStatus.failed ∧
    (execTask envTimeout (sampleTask "T1" [])).error =
      some (timeoutMsg (sampleTask "T1" [])) := by
  have h := C8_timeout_uniform envTimeout (sampleTask "T1" [])
    (fun _ => AgentOutcome.timedOut) rfl rfl
  exact ⟨h.2.1, h.2.2.1⟩

/-! ## Claim C9 — completed tasks have output and no error -/

/-- Claim C9, counterexample.  The claim states that a `COMPLETED` task
always has `error = None`, including a task completing after earlier
failed attempts.  On the code it is false: `mark_completed` sets the
status and `output_data` but does not clear `error`, so a task that
failed once and is then marked completed has status `COMPLETED` with its
old error message still set. -/
theorem C9_counterexample :
    (((sampleTask "T1" []).mark_failed "boom").mark_completed
      [("r", "1")]).status = TaskStatus.completed ∧
    (((sampleTask "T1" []).mark_failed "boom").mark_completed
      [("r", "1")]).output_data = some [("r", "1")] ∧
    (((sampleTask "T1" []).mark_failed "boom").mark_completed
      [("r", "1")]).error = some "boom" := by
  exact ⟨rfl, rfl, rfl⟩

/-- Claim C9, amended: a `COMPLETED` task always has `output_data` set,
but `error = None` holds only when the task carried no error before the
completing attempt (`mark_completed` does not clear `error`).  In every
engine run starting from pending, error-free tasks the full invariant
does hold — the engine never re-dispatches a failed task, so a completed
task's `error` is its initial `None`. -/
theorem C9_completed_output (env : AgentEnv) (w : Workflow)
    (h : ∀ t ∈ w.tasks, t.status = TaskStatus.pending ∧ t.error = none) :
    (∀ (i : Nat) (t2 : Task), (execute env w).tasks[i]? = some t2 →
      t2.status = TaskStatus.completed →
      t2.output_data.isSome = true ∧ t2.error = none) ∧
    (∀ (t : Task) (out : Dict),
      (t.mark_completed out).status = TaskStatus.completed ∧
      (t.mark_completed out).output_data = some out ∧
      (t.mark_completed out).error = t.error) := by
  constructor
  · intro i t2 ht2 hc
    rcases execute_tasks_char env w i with h1 | ⟨t, ht, hst, hexec⟩
    · rw [h1] at ht2
      have hmem : t2 ∈ w.tasks := by
        rcases List.getElem?_eq_some.mp ht2 with ⟨hlt, hget⟩
        rw [← hget]
        exact List.getElem_mem hlt
      exfalso
      have hp := (h t2 hmem).1
      rw [hp] at hc
      cases hc
    · rw [hexec] at ht2
      have he := Option.some.inj ht2
      have hc2 : (execTask env t).status = TaskStatus.completed := by
        rw [he]
        exact hc
      rcases execTask_completed_char env t hc2 with ⟨ho, herr⟩
      have hmem : t ∈ w.tasks := by
        rcases List.getElem?_eq_some.mp ht with ⟨hlt, hget⟩
        rw [← hget]
        exact List.getElem_mem hlt
      constructor
      · rw [← he]
        exact ho
      · rw [← he, herr]
        exact (h t hmem).2
  · intro t out
    exact ⟨rfl, rfl, rfl⟩

/-- Witness for `C9_completed_output` at the concrete successful run. -/
theorem C9_completed_output_witness :
    ((((sampleTask "T1" []).mark_running).mark_completed
      [("r", "1")]).output_data.isSome = true) ∧
    ((((sampleTask "T1" []).mark_running).mark_completed
      [("r", "1")]).error = none) := by
  exact (C9_completed_output envOk wfSingle (by decide)).1 0
    (((sampleTask "T1" []).mark_running).mark_completed [("r", "1")]) rfl rfl

/-! ## Claim C10 — termination and the round bound -/

/-- Claim C10: the scheduling loop of `execute` performs at most
`2 * len(workflow.tasks)` rounds (`max_iterations = len(pending_tasks) * 2`),
so `execute` terminates on every input — the embedding is a total
function; and for a workflow with zero tasks the loop body never runs and
the workflow ends `COMPLETED`. -/
theorem C10_bounded_rounds (env : AgentEnv) (w : Workflow) :
    executeRounds env w ≤ 2 * w.tasks.length ∧
    (w.tasks = [] →
      executeRounds env w = 0 ∧
      execute env w = { w with status := WorkflowStatus.completed }) := by
  constructor
  · rw [Nat.mul_comm]
    exact executeRounds_le_aux env w
  · intro h
    obtain ⟨wid, wname, wtasks, wstatus, wmr, wts⟩ := w
    have h2 : wtasks = [] := h
    subst h2
    exact ⟨rfl, rfl⟩

/-- Witness for `C10_bounded_rounds` at the empty workflow. -/
theorem C10_bounded_rounds_witness :
    executeRounds envOk wfEmpty = 0 ∧
    execute envOk wfEmpty =
      { wfEmpty with status := WorkflowStatus.completed } := by
  exact (C10_bounded_rounds envOk wfEmpty).2 rfl

end AgentFlow
